import Mathlib

/-!
Shallow embedding of the TrackMaster mastering engine
(`src/trackmaster/mastering.py`) over the reals.

Signals (numpy 1-D float arrays) are modelled as `List ℝ`.  IEEE float
behaviour that has no real-number counterpart is made explicit: a
computation whose numpy result is non-finite (`-inf`, `inf`, `nan`) is
modelled as `Option.none`, never as a junk real value (Mathlib's
`Real.log 0 = 0` would silently misrepresent numpy's `log10(0) = -inf`).

Python identifiers are kept wherever possible; a few are renamed
(`audio` → `sig`, `ratio` → `rat`, `compression_ratio` →
`compression_ratio'`, `master_audio` → `master`) for Lean lexical
reasons, noted at each definition.
-/

/-- `np.sqrt(np.mean(sig**2))`: root-mean-square of a buffer, as computed at
`mastering.py` lines 36, 99 and 292.  For the empty buffer the real-valued
mean is taken to be `0` (numpy would give `nan`; the claims only concern
non-empty buffers). -/
noncomputable def rms (sig : List ℝ) : ℝ :=
  Real.sqrt (((sig.map fun x => x ^ 2).sum) / sig.length)

/-- `np.max(np.abs(sig))`: peak absolute sample of a buffer (`0` for the
empty buffer, which numpy would reject). -/
noncomputable def peakAbs (sig : List ℝ) : ℝ :=
  (sig.map fun x => |x|).foldr max 0

/-- `np.sign`: `-1`, `0` or `1` according to the sign of the sample. -/
noncomputable def npSign (x : ℝ) : ℝ :=
  if x < 0 then -1 else if 0 < x then 1 else 0

/-- `AudioMasteringEngine.calculate_lufs` (mastering.py lines 279-294):
`20 * np.log10(rms) - 0.691` with NO epsilon.  When `rms = 0` numpy's
`log10` yields `-inf`; that non-finite result is modelled as `none`. -/
noncomputable def calculate_lufs (sig : List ℝ) : Option ℝ :=
  if rms sig = 0 then none else some (20 * Real.logb 10 (rms sig) - 0.691)

/-- The loudness estimate of `ReferenceAnalyzer.analyze_reference`
(mastering.py lines 35-37): `20 * np.log10(rms + 1e-10) - 0.691`, the
epsilon-guarded variant, finite even on silence. -/
noncomputable def reference_target_lufs (sig : List ℝ) : ℝ :=
  20 * Real.logb 10 (rms sig + 1e-10) - 0.691

/-- Per-sample compressor transfer curve (mastering.py lines 256-262): a
sample strictly above the threshold in magnitude is mapped to
`sign(x) * (threshold + (|x| - threshold) / rat)`; any other sample passes
through unchanged. -/
noncomputable def compressSample (threshold rat x : ℝ) : ℝ :=
  if threshold < |x| then npSign x * (threshold + (|x| - threshold) / rat) else x

/-- Derived reference record (`reference_params` dict built at
mastering.py lines 48-57).  The spectral fields come from librosa STFT
analysis (external library); here they are plain record fields.  The
Python key `compression_ratio` is spelled `compression_ratio'`. -/
structure RefProfile where
  target_lufs : ℝ
  dynamic_range : ℝ
  peak_level : ℝ
  spectral_centroid : ℝ
  spectral_rolloff : ℝ
  high_freq_energy : ℝ
  low_freq_energy : ℝ
  compression_ratio' : ℝ

/-- `AudioMasteringEngine.apply_compression` (mastering.py lines 231-264).
If a reference profile is present, the ratio is taken from the profile and
the threshold recomputed as `max(0.3, min(0.8, 0.9 - dynamic_range/40))`;
then the per-sample curve is applied (numpy's masked in-place assignment
is exactly a pointwise map). -/
noncomputable def apply_compression (sig : List ℝ) (threshold rat : ℝ)
    (reference_params : Option RefProfile) : List ℝ :=
  let rat' := match reference_params with
    | some p => p.compression_ratio'
    | none => rat
  let threshold' := match reference_params with
    | some p => max 0.3 (min 0.8 (0.9 - p.dynamic_range / 40))
    | none => threshold
  sig.map (compressSample threshold' rat')

/-- `AudioMasteringEngine.apply_limiter` (mastering.py lines 266-277):
`np.clip(sig, -ceiling, ceiling)`, i.e. pointwise
`min (max x (-ceiling)) ceiling` (numpy applies the lower bound first,
then the upper bound). -/
noncomputable def apply_limiter (sig : List ℝ) (ceiling : ℝ) : List ℝ :=
  sig.map fun x => min (max x (-ceiling)) ceiling

/-- `AudioMasteringEngine.loudness_normalize` (mastering.py lines 296-322):
gain to reach the target is computed from `calculate_lufs`, the buffer is
scaled, and if the scaled peak exceeds `0.95` the buffer is rescaled to a
peak of exactly `0.95`.  When `rms sig = 0` the current loudness is
`-inf`, the gain `10^inf = inf`, and `0 * inf = nan`: the buffer of `nan`
is modelled as `none`. -/
noncomputable def loudness_normalize (sig : List ℝ) (target_lufs : ℝ) :
    Option (List ℝ) :=
  match calculate_lufs sig with
  | none => none
  | some current_lufs =>
    let gain_db := target_lufs - current_lufs
    let gain_linear : ℝ := (10 : ℝ) ^ (gain_db / 20)
    let normalized := sig.map fun x => x * gain_linear
    let peak := peakAbs normalized
    if 0.95 < peak then some (normalized.map fun x => x / peak * 0.95)
    else some normalized

/-- One second-order IIR section (one row of a scipy `sos` array, with
`a0` normalised to `1`): transfer function
`(b0 + b1 z⁻¹ + b2 z⁻²) / (1 + a1 z⁻¹ + a2 z⁻²)`. -/
structure Biquad where
  b0 : ℝ
  b1 : ℝ
  b2 : ℝ
  a1 : ℝ
  a2 : ℝ

/-- One biquad section run over a buffer in direct form II transposed
(the realisation used by `scipy.signal.sosfilt`), carrying the two state
variables; initial conditions are zero (scipy's default). -/
noncomputable def biquadRun (c : Biquad) : ℝ → ℝ → List ℝ → List ℝ
  | _, _, [] => []
  | z1, z2, x :: xs =>
    let y := c.b0 * x + z1
    y :: biquadRun c (c.b1 * x - c.a1 * y + z2) (c.b2 * x - c.a2 * y) xs

/-- `scipy.signal.sosfilt` (external library): cascade of second-order
sections, each started with zero internal state. -/
noncomputable def sosfilt (sections : List Biquad) (sig : List ℝ) : List ℝ :=
  sections.foldl (fun acc c => biquadRun c 0 0 acc) sig

/-- Models `scipy.signal.butter(2, fc, btype='highpass', fs, output='sos')`
(external library): prewarped bilinear transform of the order-2 analog
Butterworth high-pass prototype, one second-order section, in the
standard closed form with `c = tan (π fc / fs)`. -/
noncomputable def butterHighpass (fc fs : ℝ) : List Biquad :=
  let c := Real.tan (Real.pi * fc / fs)
  let d := c ^ 2 + Real.sqrt 2 * c + 1
  [⟨1 / d, -2 / d, 1 / d, 2 * (c ^ 2 - 1) / d, (c ^ 2 - Real.sqrt 2 * c + 1) / d⟩]

/-- Models `scipy.signal.butter(2, fc, btype='lowpass', fs, output='sos')`
(external library): same prewarped bilinear design, low-pass numerator. -/
noncomputable def butterLowpass (fc fs : ℝ) : List Biquad :=
  let c := Real.tan (Real.pi * fc / fs)
  let d := c ^ 2 + Real.sqrt 2 * c + 1
  [⟨c ^ 2 / d, 2 * c ^ 2 / d, c ^ 2 / d, 2 * (c ^ 2 - 1) / d,
    (c ^ 2 - Real.sqrt 2 * c + 1) / d⟩]

/-- Models `scipy.signal.butter(2, [f1, f2], btype='bandpass', fs,
output='sos')` (external library): the order-2 analog Butterworth
prototype pole `e^{3iπ/4}` is band-transformed
(`s² - B p s + ω₀² = 0` with prewarped edges), each resulting complex
pole is mapped through the bilinear transform `z = (1+s)/(1-s)` and
paired with its conjugate into a real section; the zeros `±1` give
numerators `z² - 1`, and the overall gain `B² / Π|1 - sₖ|²` is placed on
the first section. -/
noncomputable def butterBandpass (f1 f2 fs : ℝ) : List Biquad :=
  let w1 := Real.tan (Real.pi * f1 / fs)
  let w2 := Real.tan (Real.pi * f2 / fs)
  let bw : ℂ := ((w2 - w1 : ℝ) : ℂ)
  let w0sq : ℂ := ((w1 * w2 : ℝ) : ℂ)
  let p : ℂ := ⟨-(Real.sqrt 2) / 2, Real.sqrt 2 / 2⟩
  let disc : ℂ := ((bw * p) ^ 2 - 4 * w0sq) ^ ((1 : ℂ) / 2)
  let sA := (bw * p + disc) / 2
  let sB := (bw * p - disc) / 2
  let zA := (1 + sA) / (1 - sA)
  let zB := (1 + sB) / (1 - sB)
  let g := (w2 - w1) ^ 2 / (Complex.normSq (1 - sA) * Complex.normSq (1 - sB))
  [⟨g, 0, -g, -2 * zA.re, Complex.normSq zA⟩,
   ⟨1, 0, -1, -2 * zB.re, Complex.normSq zB⟩]

/-- `AudioMasteringEngine._apply_reference_eq` (mastering.py lines
205-229).  The current signal's high/low band energies are computed by
librosa STFT analysis (external library); that analysis is abstracted as
the function argument `spectrum`, returning the pair
(high_freq_energy, low_freq_energy) of a buffer.  The high-frequency
branch is additive above ratio 1.2 but destructive (8 kHz low-pass
replace) below 0.8; the low-frequency branch is additive above 1.2. -/
noncomputable def apply_reference_eq (spectrum : List ℝ → ℝ × ℝ)
    (sig : List ℝ) (sr : ℝ) (p : RefProfile) : List ℝ :=
  let current := spectrum sig
  let high_freq_r := p.high_freq_energy / (current.1 + 1e-10)
  let low_freq_r := p.low_freq_energy / (current.2 + 1e-10)
  let sig1 :=
    if 1.2 < high_freq_r then
      List.zipWith (· + ·) sig
        ((sosfilt (butterBandpass 6000 16000 sr) sig).map fun x =>
          x * min 0.2 ((high_freq_r - 1) * 0.1))
    else if high_freq_r < 0.8 then sosfilt (butterLowpass 8000 sr) sig
    else sig
  if 1.2 < low_freq_r then
    List.zipWith (· + ·) sig1
      ((sosfilt (butterBandpass 80 300 sr) sig1).map fun x =>
        x * min 0.15 ((low_freq_r - 1) * 0.1))
  else sig1

/-- `AudioMasteringEngine.apply_eq` (mastering.py lines 176-203): always
the 30 Hz order-2 Butterworth high-pass first; then, with no profile, the
8-16 kHz order-2 band-pass of the high-passed signal scaled by `0.1` and
summed back in; with a profile, the reference EQ branch. -/
noncomputable def apply_eq (spectrum : List ℝ → ℝ × ℝ) (sig : List ℝ)
    (sr : ℝ) (reference_params : Option RefProfile) : List ℝ :=
  let hp := sosfilt (butterHighpass 30 sr) sig
  match reference_params with
  | some p => apply_reference_eq spectrum hp sr p
  | none =>
    let hf_boost := (sosfilt (butterBandpass 8000 16000 sr) hp).map fun x => x * 0.1
    List.zipWith (· + ·) hp hf_boost

/-- `np.percentile(xs, q)` (external library) with the default linear
interpolation: sort ascending, take the virtual index
`h = (n-1) * q / 100` and interpolate between the neighbouring order
statistics. -/
noncomputable def percentile (xs : List ℝ) (q : ℝ) : ℝ :=
  let s := List.insertionSort (· ≤ ·) xs
  let h := ((xs.length : ℝ) - 1) * q / 100
  let lo := (⌊h⌋).toNat
  let v0 := s.getD lo 0
  let v1 := s.getD (lo + 1) v0
  v0 + (h - ⌊h⌋) * (v1 - v0)

/-- `ReferenceAnalyzer._calculate_dynamic_range` (mastering.py lines
59-66): epsilon-guarded ratio of the 95th to the 10th percentile of the
absolute signal, in dB, clamped to `[0, 40]`. -/
noncomputable def calculate_dynamic_range (sig : List ℝ) : ℝ :=
  let loud_level := percentile (sig.map fun x => |x|) 95
  let quiet_level := percentile (sig.map fun x => |x|) 10
  let dr := 20 * Real.logb 10 ((loud_level + 1e-10) / (quiet_level + 1e-10))
  max 0 (min 40 dr)

/-- `ReferenceAnalyzer._estimate_compression_ratio` (mastering.py lines
94-108): `max(1, min(10, 15 / (peak / rms)))` when `rms > 0`, else the
default fallback `3.0`.  (Python name `_estimate_compression_ratio`.) -/
noncomputable def estimate_compression_ratio' (sig : List ℝ) : ℝ :=
  let peak := peakAbs sig
  if 0 < rms sig then max 1 (min 10 (15 / (peak / rms sig))) else 3

/-- `ReferenceAnalyzer.analyze_reference` (mastering.py lines 19-57) on a
mono buffer (a multi-channel reference is first averaged to mono, and the
pipeline resamples it beforehand if needed — both outside these claims).
The four spectral fields come from librosa STFT analysis (external
library) and are taken as arguments. -/
noncomputable def analyze_reference (sig : List ℝ)
    (centroid rolloff hfe lfe : ℝ) : RefProfile :=
  { target_lufs := reference_target_lufs sig
    dynamic_range := calculate_dynamic_range sig
    peak_level := peakAbs sig
    spectral_centroid := centroid
    spectral_rolloff := rolloff
    high_freq_energy := hfe
    low_freq_energy := lfe
    compression_ratio' := estimate_compression_ratio' sig }

/-- A decoded numpy buffer as seen by `master_audio`: either a 1-D mono
array or a 2-D array of channel rows. -/
inductive Buffer where
  | mono (sig : List ℝ)
  | multi (channels : List (List ℝ))

/-- Result of a mastering run; each channel is `none` when the numpy
computation for that channel produced non-finite samples. -/
inductive MasterResult where
  | mono (sig : Option (List ℝ))
  | multi (channels : List (Option (List ℝ)))

/-- One channel through the chain of `master_audio` (mastering.py lines
374-378 / 383-386): EQ → compression (default threshold 0.7, ratio 3.0)
→ loudness normalisation to the target → limiter at ceiling 0.95. -/
noncomputable def processChannel (spectrum : List ℝ → ℝ × ℝ) (sr : ℝ)
    (reference_params : Option RefProfile) (target_lufs : ℝ)
    (ch : List ℝ) : Option (List ℝ) :=
  let a1 := apply_eq spectrum ch sr reference_params
  let a2 := apply_compression a1 0.7 3.0 reference_params
  (loudness_normalize a2 target_lufs).map fun a3 => apply_limiter a3 0.95

/-- The target determination at mastering.py line 368: the profile's
`target_lufs` when a reference profile exists, else the engine's
configured target. -/
noncomputable def effectiveTarget (engine_target_lufs : ℝ) :
    Option RefProfile → ℝ
  | some p => p.target_lufs
  | none => engine_target_lufs

/-- `AudioMasteringEngine.master_audio` (mastering.py lines 324-390),
modelled at the engine's processing rate (resampling of input and
reference is delegated to librosa, an external collaborator) and with the
reference analysis abstracted into the optional `reference_params`
profile it produces.  Channel topology is normalised exactly as in the
source: more than 2 channel rows are truncated to the first 2 (line 354),
then a single-row 2-D buffer is squeezed to mono (line 358); the
effective target is the profile's `target_lufs` when a profile exists,
else the engine's configured target (line 368); a 2-D buffer is processed
row by row, a mono buffer once.  (Python name `master_audio`.) -/
noncomputable def master (spectrum : List ℝ → ℝ × ℝ) (buf : Buffer)
    (sr : ℝ) (engine_target_lufs : ℝ)
    (reference_params : Option RefProfile) : MasterResult :=
  let buf1 := match buf with
    | .multi chs => if 2 < chs.length then Buffer.multi (chs.take 2) else Buffer.multi chs
    | b => b
  let buf2 := match buf1 with
    | .multi chs => if chs.length = 1 then Buffer.mono (chs.headD []) else Buffer.multi chs
    | b => b
  let target_lufs := effectiveTarget engine_target_lufs reference_params
  match buf2 with
  | .mono sig => MasterResult.mono (processChannel spectrum sr reference_params target_lufs sig)
  | .multi chs =>
      MasterResult.multi (chs.map (processChannel spectrum sr reference_params target_lufs))

/-- Extract a processed channel from a mastering result. -/
def MasterResult.channel (r : MasterResult) (i : ℕ) : Option (List ℝ) :=
  match r with
  | .mono s => if i = 0 then s else none
  | .multi cs => cs.getD i none

theorem peakAbs_cons (x : ℝ) (xs : List ℝ) :
    peakAbs (x :: xs) = max |x| (peakAbs xs) := rfl

theorem peakAbs_nonneg (xs : List ℝ) : 0 ≤ peakAbs xs := by
  induction xs with
  | nil => exact le_refl 0
  | cons x xs ih => exact le_trans ih (le_max_right _ _)

theorem peakAbs_map_mul (xs : List ℝ) (c : ℝ) (hc : 0 ≤ c) :
    peakAbs (xs.map fun x => x * c) = peakAbs xs * c := by
  induction xs with
  | nil => simp [peakAbs]
  | cons x xs ih =>
    rw [List.map_cons, peakAbs_cons, peakAbs_cons, ih, abs_mul, abs_of_nonneg hc,
      max_mul_of_nonneg _ _ hc]

theorem rms_replicate_zero (n : ℕ) : rms (List.replicate n 0) = 0 := by
  simp [rms]

theorem rms_singleton (x : ℝ) : rms [x] = |x| := by
  simp [rms, Real.sqrt_sq_eq_abs]

theorem biquadRun_length (c : Biquad) (z1 z2 : ℝ) (xs : List ℝ) :
    (biquadRun c z1 z2 xs).length = xs.length := by
  induction xs generalizing z1 z2 with
  | nil => rfl
  | cons x xs ih => simp [biquadRun, ih]

theorem sosfilt_cons (c : Biquad) (ss : List Biquad) (xs : List ℝ) :
    sosfilt (c :: ss) xs = sosfilt ss (biquadRun c 0 0 xs) := rfl

theorem sosfilt_length (ss : List Biquad) (xs : List ℝ) :
    (sosfilt ss xs).length = xs.length := by
  induction ss generalizing xs with
  | nil => rfl
  | cons c ss ih => rw [sosfilt_cons, ih, biquadRun_length]

theorem biquadRun_zero (c : Biquad) (n : ℕ) :
    biquadRun c 0 0 (List.replicate n 0) = List.replicate n 0 := by
  induction n with
  | zero => rfl
  | succ k ih => simp [List.replicate_succ, biquadRun, ih]

theorem sosfilt_zero (ss : List Biquad) (n : ℕ) :
    sosfilt ss (List.replicate n 0) = List.replicate n 0 := by
  induction ss with
  | nil => rfl
  | cons c ss ih => rw [sosfilt_cons, biquadRun_zero, ih]

theorem zipWith_add_replicate_zero (n : ℕ) :
    List.zipWith (· + ·) (List.replicate n (0 : ℝ)) (List.replicate n 0) =
      List.replicate n 0 := by
  induction n with
  | zero => rfl
  | succ k ih => simp [List.replicate_succ, ih]

/-- C4: `apply_compression` maps each sample `x` with `|x| > threshold` to
`sign(x) * (threshold + (|x| - threshold) / ratio)` and leaves samples
with `|x| ≤ threshold` unchanged; with a reference profile, the ratio is
the profile's compression ratio and the threshold is
`clamp(0.9 - dynamic_range/40, 0.3, 0.8)`. -/
theorem claim_C4_compression (sig : List ℝ) (threshold rat : ℝ) (p : RefProfile) :
    (apply_compression sig threshold rat none =
      sig.map fun x =>
        if threshold < |x| then npSign x * (threshold + (|x| - threshold) / rat) else x) ∧
    (apply_compression sig threshold rat (some p) =
      sig.map fun x =>
        if max 0.3 (min 0.8 (0.9 - p.dynamic_range / 40)) < |x| then
          npSign x * (max 0.3 (min 0.8 (0.9 - p.dynamic_range / 40)) +
            (|x| - max 0.3 (min 0.8 (0.9 - p.dynamic_range / 40))) / p.compression_ratio')
        else x) ∧
    (∀ x : ℝ, |x| ≤ threshold → compressSample threshold rat x = x) ∧
    (∀ x : ℝ, threshold < |x| →
      compressSample threshold rat x = npSign x * (threshold + (|x| - threshold) / rat)) := by
  refine ⟨rfl, rfl, ?_, ?_⟩
  · intro x hx
    exact if_neg (not_lt.mpr hx)
  · intro x hx
    exact if_pos hx

/-- Witness for C4 at concrete samples: `0.5` is at or below the default
threshold `0.7` and passes through; `0.9` is compressed to `23/30`. -/
theorem claim_C4_witness :
    compressSample 0.7 3 (0.5 : ℝ) = 0.5 ∧ compressSample 0.7 3 (0.9 : ℝ) = 23 / 30 := by
  have habs5 : |(0.5 : ℝ)| = 0.5 := abs_of_nonneg (by norm_num)
  have habs9 : |(0.9 : ℝ)| = 0.9 := abs_of_nonneg (by norm_num)
  have h := claim_C4_compression [] 0.7 3 ⟨0, 0, 0, 0, 0, 0, 0, 0⟩
  constructor
  · exact h.2.2.1 0.5 (by rw [habs5]; norm_num)
  · rw [h.2.2.2 0.9 (by rw [habs9]; norm_num), habs9, npSign]
    norm_num

/-- C5 as stated is false: with a negative ceiling, `np.clip` (lower
bound applied first, then upper bound) sends every sample to the upper
bound, whose magnitude exceeds the ceiling: on the one-sample buffer
`[0]` with ceiling `-1` the limiter returns `[-1]` and `1 ≤ -1` fails. -/
theorem claim_C5_counterexample :
    ¬ peakAbs (apply_limiter [(0 : ℝ)] (-1)) ≤ -1 := by
  intro hc
  have h1 : apply_limiter [(0 : ℝ)] (-1) = [-1] := by
    simp [apply_limiter]
  rw [h1, peakAbs_cons] at hc
  have : peakAbs ([] : List ℝ) = 0 := rfl
  rw [this] at hc
  have h2 : |(-1 : ℝ)| = 1 := by norm_num
  rw [h2] at hc
  have : (1 : ℝ) ≤ -1 := le_trans (le_max_left _ _) hc
  linarith

/-- Amended C5: for every signal and every NON-NEGATIVE ceiling the
limiter output peak is at most the ceiling (`np.clip` to
`[-ceiling, ceiling]`). -/
theorem claim_C5_limiter_ceiling (sig : List ℝ) (ceiling : ℝ) (h : 0 ≤ ceiling) :
    peakAbs (apply_limiter sig ceiling) ≤ ceiling := by
  induction sig with
  | nil => exact h
  | cons x xs ih =>
    show peakAbs (min (max x (-ceiling)) ceiling :: apply_limiter xs ceiling) ≤ ceiling
    rw [peakAbs_cons]
    have hv : |min (max x (-ceiling)) ceiling| ≤ ceiling := by
      rw [abs_le]
      exact ⟨le_min (le_max_right _ _) (by linarith), min_le_right _ _⟩
    exact max_le hv ih

/-- Witness for the amended C5 at a concrete clipping input. -/
theorem claim_C5_witness : peakAbs (apply_limiter [(2 : ℝ), -3] 0.95) ≤ 0.95 :=
  claim_C5_limiter_ceiling [2, -3] 0.95 (by norm_num)

/-- C6: for every non-empty signal the analyzer's dynamic range lies in
`[0, 40]` and its compression-ratio estimate in `[1, 10]`; when the rms
is `0` the estimate is the default fallback `3.0`. -/
theorem claim_C6_analyzer_clamps (sig : List ℝ) (h : sig ≠ []) :
    0 ≤ calculate_dynamic_range sig ∧ calculate_dynamic_range sig ≤ 40 ∧
    1 ≤ estimate_compression_ratio' sig ∧ estimate_compression_ratio' sig ≤ 10 ∧
    (rms sig = 0 → estimate_compression_ratio' sig = 3) := by
  refine ⟨le_max_left _ _, max_le (by norm_num) (min_le_left _ _), ?_, ?_, ?_⟩
  · simp only [estimate_compression_ratio']
    split
    · exact le_max_left _ _
    · norm_num
  · simp only [estimate_compression_ratio']
    split
    · exact max_le (by norm_num) (min_le_left _ _)
    · norm_num
  · intro hr
    simp only [estimate_compression_ratio']
    rw [if_neg]
    rw [hr]
    exact lt_irrefl 0

/-- Witness for C6 at the silent one-sample buffer, also exhibiting the
`rms = 0` fallback. -/
theorem claim_C6_witness :
    (0 ≤ calculate_dynamic_range [(0 : ℝ)] ∧ calculate_dynamic_range [(0 : ℝ)] ≤ 40 ∧
      1 ≤ estimate_compression_ratio' [(0 : ℝ)] ∧
      estimate_compression_ratio' [(0 : ℝ)] ≤ 10) ∧
    estimate_compression_ratio' [(0 : ℝ)] = 3 := by
  have h := claim_C6_analyzer_clamps [(0 : ℝ)] (by simp)
  exact ⟨⟨h.1, h.2.1, h.2.2.1, h.2.2.2.1⟩, h.2.2.2.2 (by simp [rms])⟩

/-- C7: the reference analyzer's loudness estimate adds `1e-10` to the
rms before the log and is finite even on silence (on silence it equals
exactly `-200.691`), while the standalone `calculate_lufs` used for
pipeline gain adds no epsilon, so an all-zero signal yields `-inf`
(modelled as `none`); both use `rms = sqrt(mean(signal²))`. -/
theorem claim_C7_two_estimators (sig : List ℝ) (n : ℕ) :
    rms sig = Real.sqrt (((sig.map fun x => x ^ 2).sum) / sig.length) ∧
    (rms sig ≠ 0 → calculate_lufs sig = some (20 * Real.logb 10 (rms sig) - 0.691)) ∧
    (rms sig = 0 → calculate_lufs sig = none) ∧
    reference_target_lufs sig = 20 * Real.logb 10 (rms sig + 1e-10) - 0.691 ∧
    calculate_lufs (List.replicate n 0) = none ∧
    reference_target_lufs (List.replicate n 0) = -200.691 := by
  refine ⟨rfl, ?_, ?_, rfl, ?_, ?_⟩
  · intro h
    exact if_neg h
  · intro h
    exact if_pos h
  · simp only [calculate_lufs, rms_replicate_zero, if_pos]
  · simp only [reference_target_lufs, rms_replicate_zero, zero_add]
    have h10 : (1e-10 : ℝ) = (10 : ℝ) ^ ((-10 : ℤ) : ℝ) := by
      rw [Real.rpow_intCast]
      norm_num
    rw [h10, Real.logb_rpow (by norm_num) (by norm_num)]
    norm_num

/-- Witness for C7: the one-sample buffer `[1]` has nonzero rms and gets
the epsilon-free estimate; a silent 3-sample buffer yields `none` from
the standalone estimator and `-200.691` from the reference variant. -/
theorem claim_C7_witness :
    calculate_lufs [(1 : ℝ)] = some (20 * Real.logb 10 (rms [(1 : ℝ)]) - 0.691) ∧
    calculate_lufs (List.replicate 3 (0 : ℝ)) = none ∧
    reference_target_lufs (List.replicate 3 (0 : ℝ)) = -200.691 := by
  have h := claim_C7_two_estimators [(1 : ℝ)] 3
  refine ⟨h.2.1 ?_, h.2.2.2.2.1, h.2.2.2.2.2⟩
  simp [rms_singleton]

/-- The scaled buffer built inside `loudness_normalize` (mastering.py
lines 311-315) when the rms is nonzero: the signal multiplied by the
linear gain `10^((target - current_lufs) / 20)`. -/
noncomputable def normalizedPreClip (sig : List ℝ) (target_lufs : ℝ) : List ℝ :=
  sig.map fun x =>
    x * (10 : ℝ) ^ ((target_lufs - (20 * Real.logb 10 (rms sig) - 0.691)) / 20)

/-- C3: for a signal of nonzero rms, `loudness_normalize` scales the
signal by `10^((target - estimate)/20)`; if and only if the scaled peak
exceeds `0.95` the whole buffer is rescaled so the peak becomes exactly
`0.95`, otherwise the scaled buffer is returned as-is. -/
theorem claim_C3_loudness_normalize (sig : List ℝ) (target : ℝ) (h : rms sig ≠ 0) :
    (0.95 < peakAbs (normalizedPreClip sig target) →
      loudness_normalize sig target =
        some ((normalizedPreClip sig target).map fun x =>
          x / peakAbs (normalizedPreClip sig target) * 0.95) ∧
      peakAbs ((normalizedPreClip sig target).map fun x =>
        x / peakAbs (normalizedPreClip sig target) * 0.95) = 0.95) ∧
    (peakAbs (normalizedPreClip sig target) ≤ 0.95 →
      loudness_normalize sig target = some (normalizedPreClip sig target)) := by
  have hc : calculate_lufs sig = some (20 * Real.logb 10 (rms sig) - 0.691) := if_neg h
  constructor
  · intro hpk
    have hp0 : 0 < peakAbs (normalizedPreClip sig target) := lt_trans (by norm_num) hpk
    constructor
    · simp only [loudness_normalize, hc, normalizedPreClip] at *
      rw [if_pos hpk]
    · have hmap : (normalizedPreClip sig target).map
          (fun x => x / peakAbs (normalizedPreClip sig target) * 0.95) =
          (normalizedPreClip sig target).map
            (fun x => x * (0.95 / peakAbs (normalizedPreClip sig target))) := by
        apply List.map_congr_left
        intro a _
        ring
      rw [hmap, peakAbs_map_mul _ _ (by positivity)]
      rw [mul_comm, div_mul_cancel₀ _ (ne_of_gt hp0)]
  · intro hpk
    simp only [loudness_normalize, hc, normalizedPreClip] at *
    rw [if_neg (not_lt.mpr hpk)]

theorem peakAbs_singleton (x : ℝ) : peakAbs [x] = |x| := by
  rw [peakAbs_cons]
  exact max_eq_left (abs_nonneg x)

/-- Witness for C3: the one-sample buffer `[2]` normalised to its own
current loudness keeps gain `1`, its peak `2` trips the clip guard, and
the result is exactly `[0.95]`. -/
theorem claim_C3_witness :
    rms [(2 : ℝ)] ≠ 0 ∧
    loudness_normalize [(2 : ℝ)] (20 * Real.logb 10 (rms [(2 : ℝ)]) - 0.691) =
      some [0.95] := by
  have habs : |(2 : ℝ)| = 2 := abs_of_nonneg (by norm_num)
  have hr : rms [(2 : ℝ)] = 2 := by rw [rms_singleton, habs]
  have hne : rms [(2 : ℝ)] ≠ 0 := by rw [hr]; norm_num
  have hpre : normalizedPreClip [(2 : ℝ)] (20 * Real.logb 10 (rms [(2 : ℝ)]) - 0.691) =
      [2] := by
    simp only [normalizedPreClip, List.map_cons, List.map_nil, sub_self, zero_div,
      Real.rpow_zero, mul_one]
  have h :=
    (claim_C3_loudness_normalize [(2 : ℝ)] (20 * Real.logb 10 (rms [(2 : ℝ)]) - 0.691) hne).1
  rw [hpre] at h
  have hpk : (0.95 : ℝ) < peakAbs [2] := by
    rw [peakAbs_singleton, habs]
    norm_num
  refine ⟨hne, ?_⟩
  rw [(h hpk).1, List.map_cons, List.map_nil, peakAbs_singleton, habs]
  norm_num

/-- C1 (the code, at the failing input): the spec demands that zero-rms
normalization short-circuit and return the signal unchanged, so that
`master` on an all-zero buffer of length 44100 returns it unchanged.  The
code has no such guard: EQ and compression keep the buffer all-zero, then
`loudness_normalize` computes `log10(0) = -inf`, gain `inf`, and
`0 * inf = nan`, so the run produces a non-finite buffer (`none`), not
the all-zero buffer. -/
theorem claim_C1_zero_buffer (spectrum : List ℝ → ℝ × ℝ) :
    master spectrum (Buffer.mono (List.replicate 44100 0)) 44100 (-14) none =
      MasterResult.mono none := by
  have heq : apply_eq spectrum (List.replicate 44100 (0 : ℝ)) 44100 none =
      List.replicate 44100 0 := by
    show List.zipWith (· + ·)
        (sosfilt (butterHighpass 30 44100) (List.replicate 44100 0))
        ((sosfilt (butterBandpass 8000 16000 44100)
          (sosfilt (butterHighpass 30 44100) (List.replicate 44100 0))).map
            fun x => x * 0.1) =
      List.replicate 44100 0
    rw [sosfilt_zero, sosfilt_zero, List.map_replicate]
    norm_num
  have h0 : compressSample 0.7 3.0 (0 : ℝ) = 0 := by
    simp only [compressSample, abs_zero]
    rw [if_neg (by norm_num : ¬(0.7 : ℝ) < 0)]
  have hcomp : apply_compression (List.replicate 44100 (0 : ℝ)) 0.7 3.0 none =
      List.replicate 44100 0 := by
    show (List.replicate 44100 (0 : ℝ)).map (compressSample 0.7 3.0) = _
    rw [List.map_replicate, h0]
  have hlufs : calculate_lufs (List.replicate 44100 (0 : ℝ)) = none := by
    simp only [calculate_lufs, rms_replicate_zero, if_pos]
  have hnorm : loudness_normalize (List.replicate 44100 (0 : ℝ)) (-14) = none := by
    simp only [loudness_normalize, hlufs]
  show MasterResult.mono
      ((loudness_normalize
        (apply_compression (apply_eq spectrum (List.replicate 44100 0) 44100 none)
          0.7 3.0 none) (-14)).map fun a3 => apply_limiter a3 0.95) =
    MasterResult.mono none
  rw [heq, hcomp, hnorm]
  rfl

/-- C2: when a reference profile is supplied the effective normalization
target is the profile's `target_lufs` (for an analyzed reference, the
epsilon-guarded loudness of the reference signal) and the configured
target is ignored; with no reference the configured target is used. -/
theorem claim_C2_target_selection (spectrum : List ℝ → ℝ × ℝ) (buf : Buffer)
    (sr t₁ t₂ t : ℝ) (p : RefProfile) (sig ref : List ℝ) (c r hfe lfe : ℝ) :
    master spectrum buf sr t₁ (some p) = master spectrum buf sr t₂ (some p) ∧
    master spectrum (Buffer.mono sig) sr t₁ (some p) =
      MasterResult.mono (processChannel spectrum sr (some p) p.target_lufs sig) ∧
    master spectrum (Buffer.mono sig) sr t (some (analyze_reference ref c r hfe lfe)) =
      MasterResult.mono
        (processChannel spectrum sr (some (analyze_reference ref c r hfe lfe))
          (reference_target_lufs ref) sig) ∧
    master spectrum (Buffer.mono sig) sr t none =
      MasterResult.mono (processChannel spectrum sr none t sig) :=
  ⟨rfl, rfl, rfl, rfl⟩

/-- C9: a stereo buffer is processed channel-by-channel through
EQ → compression → loudness normalization → limiter, each channel
depending only on its own samples and the shared read-only
profile/target: replacing the other channel leaves a channel's output
unchanged. -/
theorem claim_C9_channel_independence (spectrum : List ℝ → ℝ × ℝ)
    (c0 c1 c0' c1' : List ℝ) (sr t : ℝ) (p? : Option RefProfile) :
    master spectrum (Buffer.multi [c0, c1]) sr t p? =
      MasterResult.multi
        [processChannel spectrum sr p? (effectiveTarget t p?) c0,
         processChannel spectrum sr p? (effectiveTarget t p?) c1] ∧
    (master spectrum (Buffer.multi [c0, c1]) sr t p?).channel 0 =
      (master spectrum (Buffer.multi [c0, c1']) sr t p?).channel 0 ∧
    (master spectrum (Buffer.multi [c0, c1]) sr t p?).channel 1 =
      (master spectrum (Buffer.multi [c0', c1]) sr t p?).channel 1 :=
  ⟨rfl, rfl, rfl⟩

theorem zipWith_add_boost_length (ss : List Biquad) (l : List ℝ) (f : ℝ → ℝ) :
    (List.zipWith (· + ·) l ((sosfilt ss l).map f)).length = l.length := by
  rw [List.length_zipWith, List.length_map, sosfilt_length, min_self]

theorem apply_reference_eq_length (spectrum : List ℝ → ℝ × ℝ) (sig : List ℝ)
    (sr : ℝ) (p : RefProfile) :
    (apply_reference_eq spectrum sig sr p).length = sig.length := by
  simp only [apply_reference_eq]
  split
  · rw [zipWith_add_boost_length]
    split
    · rw [zipWith_add_boost_length]
    · split
      · rw [sosfilt_length]
      · rfl
  · split
    · rw [zipWith_add_boost_length]
    · split
      · rw [sosfilt_length]
      · rfl

/-- C10: `apply_eq` preserves length in both modes; it always first
applies the order-2 30 Hz Butterworth high-pass, and in standard mode
returns that high-passed signal plus `0.1` times its 8-16 kHz order-2
band-pass filtered version. -/
theorem claim_C10_apply_eq (spectrum : List ℝ → ℝ × ℝ) (sig : List ℝ)
    (sr : ℝ) (p : RefProfile) :
    (apply_eq spectrum sig sr none).length = sig.length ∧
    (apply_eq spectrum sig sr (some p)).length = sig.length ∧
    apply_eq spectrum sig sr none =
      List.zipWith (· + ·) (sosfilt (butterHighpass 30 sr) sig)
        ((sosfilt (butterBandpass 8000 16000 sr)
          (sosfilt (butterHighpass 30 sr) sig)).map fun x => x * 0.1) ∧
    apply_eq spectrum sig sr (some p) =
      apply_reference_eq spectrum (sosfilt (butterHighpass 30 sr) sig) sr p := by
  refine ⟨?_, ?_, rfl, rfl⟩
  · show (List.zipWith (· + ·) (sosfilt (butterHighpass 30 sr) sig)
        ((sosfilt (butterBandpass 8000 16000 sr)
          (sosfilt (butterHighpass 30 sr) sig)).map fun x => x * 0.1)).length =
      sig.length
    rw [zipWith_add_boost_length, sosfilt_length]
  · show (apply_reference_eq spectrum (sosfilt (butterHighpass 30 sr) sig) sr p).length =
      sig.length
    rw [apply_reference_eq_length, sosfilt_length]

/-- C8 as stated ("down-mixes to 2 channels") is false in the mixing
sense: on a concrete 3-channel buffer the third channel is discarded
entirely — the result is unchanged when the third channel's samples are
replaced, and equals the run on just the first two channels, so no
down-mix incorporating the extra channel takes place. -/
theorem claim_C8_counterexample :
    master (fun _ => ((0 : ℝ), (0 : ℝ))) (Buffer.multi [[0], [0], [5]]) 44100 (-14) none =
      master (fun _ => ((0 : ℝ), (0 : ℝ))) (Buffer.multi [[0], [0], [0]]) 44100 (-14) none ∧
    master (fun _ => ((0 : ℝ), (0 : ℝ))) (Buffer.multi [[0], [0], [5]]) 44100 (-14) none =
      master (fun _ => ((0 : ℝ), (0 : ℝ))) (Buffer.multi [[0], [0]]) 44100 (-14) none :=
  ⟨rfl, rfl⟩

/-- Amended C8: a buffer with more than 2 channel rows is truncated to
its FIRST 2 channels (the remaining channels are discarded, not mixed
in) before per-channel processing, and exactly 2 channels are
processed. -/
theorem claim_C8_truncate (spectrum : List ℝ → ℝ × ℝ) (chs : List (List ℝ))
    (sr t : ℝ) (p? : Option RefProfile) (h : 2 < chs.length) :
    master spectrum (Buffer.multi chs) sr t p? =
      master spectrum (Buffer.multi (chs.take 2)) sr t p? ∧
    master spectrum (Buffer.multi chs) sr t p? =
      MasterResult.multi
        ((chs.take 2).map (processChannel spectrum sr p? (effectiveTarget t p?))) ∧
    ((chs.take 2).map (processChannel spectrum sr p? (effectiveTarget t p?))).length = 2 := by
  obtain ⟨a, b, tl, rfl⟩ : ∃ a b tl, chs = a :: b :: tl := by
    cases chs with
    | nil => simp at h
    | cons a tl =>
      cases tl with
      | nil => simp at h
      | cons b tl2 => exact ⟨a, b, tl2, rfl⟩
  have hm : master spectrum (Buffer.multi (a :: b :: tl)) sr t p? =
      MasterResult.multi
        ([a, b].map (processChannel spectrum sr p? (effectiveTarget t p?))) := by
    simp only [master]
    rw [if_pos h]
    rfl
  exact ⟨hm.trans rfl, hm, rfl⟩

/-- Witness for the amended C8 at a concrete 3-channel buffer. -/
theorem claim_C8_witness :
    master (fun _ => ((0 : ℝ), (0 : ℝ))) (Buffer.multi [[1], [2], [3]]) 44100 (-14) none =
      master (fun _ => ((0 : ℝ), (0 : ℝ))) (Buffer.multi ([[1], [2], [3]].take 2)) 44100
        (-14) none :=
  (claim_C8_truncate (fun _ => ((0 : ℝ), (0 : ℝ))) [[1], [2], [3]] 44100 (-14) none
    (by norm_num)).1
